import Mathlib

/-!
Verification of the SP-API request-execution core: error taxonomy and
classification (src/utils/errors.ts, sp-api-client createErrorFromResponse),
the retry/backoff orchestrator (sp-api-client request / requestWithRetry /
isRetryableError), the token-bucket rate limiter (rate-limiter.ts), and the
LWA token cache (token-manager.ts).  Each definition is a shallow embedding
of the corresponding TypeScript function; JavaScript numbers used for token
counts and timestamps are modelled as rationals, millisecond timestamps in
the token manager as integers.  JavaScript string falsiness (the empty
string) and number falsiness (0, and NaN which we conflate with "absent"
since every use site treats them identically) are modelled explicitly.
-/

/-! ## Error taxonomy (src/utils/errors.ts)

The TypeScript hierarchy SPAPIError / SPAPIRequestError / SPAPIServerError /
RateLimitError / SPAPIAuthError / SPAPIValidationError is modelled as one
record tagged with the concrete class name; each subclass constructor from
errors.ts becomes a function producing the record with the fields the
constructor hardcodes. -/

inductive ErrorName where
  | SPAPIError
  | SPAPIRequestError
  | SPAPIServerError
  | RateLimitError
  | SPAPIAuthError
  | SPAPIValidationError
deriving DecidableEq

/-- One entry of the `errors` array of an SP-API error body
(interface SPAPIError in sp-api.d.ts: code, message, optional details). -/
structure ErrorEntry where
  code : String
  message : String
  details : Option String
deriving DecidableEq

/-- The `details` payload attached to a typed error: either the first
entry's own details field or the full errors array (when more than one). -/
inductive ErrDetails where
  | entryDetails : String → ErrDetails
  | allErrors : List ErrorEntry → ErrDetails
deriving DecidableEq

/-- The error object thrown by the client: class tag plus the fields of the
base class SPAPIError, with `retryAfter` only ever set by RateLimitError.
`statusCode` and `code` are optional as in the TypeScript base class. -/
structure SPAPIError where
  name : ErrorName
  message : String
  code : Option String
  statusCode : Option Nat
  details : Option ErrDetails
  retryAfter : Option Int
deriving DecidableEq

/-- `new SPAPIError(message, code?, statusCode?, details?)` -/
def mkSPAPIError (message : String) (code : Option String) (statusCode : Option Nat)
    (details : Option ErrDetails) : SPAPIError :=
  ⟨ErrorName.SPAPIError, message, code, statusCode, details, none⟩

/-- `new SPAPIRequestError(message, statusCode, code?, details?)` -/
def mkSPAPIRequestError (message : String) (statusCode : Nat) (code : Option String)
    (details : Option ErrDetails) : SPAPIError :=
  ⟨ErrorName.SPAPIRequestError, message, code, some statusCode, details, none⟩

/-- `new SPAPIServerError(message, statusCode, code?, details?)` -/
def mkSPAPIServerError (message : String) (statusCode : Nat) (code : Option String)
    (details : Option ErrDetails) : SPAPIError :=
  ⟨ErrorName.SPAPIServerError, message, code, some statusCode, details, none⟩

/-- `new RateLimitError(message, retryAfter?, details?)`: hardcodes code
RATE_LIMIT_EXCEEDED and status 429. -/
def mkRateLimitError (message : String) (retryAfter : Option Int)
    (details : Option ErrDetails) : SPAPIError :=
  ⟨ErrorName.RateLimitError, message, some "RATE_LIMIT_EXCEEDED", some 429, details, retryAfter⟩

/-- `new SPAPIAuthError(message, details?)`: hardcodes status 401 and code
UNAUTHORIZED (for 403 responses as well). -/
def mkSPAPIAuthError (message : String) (details : Option ErrDetails) : SPAPIError :=
  ⟨ErrorName.SPAPIAuthError, message, some "UNAUTHORIZED", some 401, details, none⟩

/-- `new SPAPIValidationError(message, details?)`: hardcodes status 400 and
code VALIDATION_ERROR. -/
def mkSPAPIValidationError (message : String) (details : Option ErrDetails) : SPAPIError :=
  ⟨ErrorName.SPAPIValidationError, message, some "VALIDATION_ERROR", some 400, details, none⟩

/-! ## HTTP response model and error classification
(SPAPIClient.createErrorFromResponse, src part_004 lines 192-239) -/

/-- Body of an error response; the `errors` field may be absent when the
backend returns a non-conforming body. -/
structure SPAPIErrorResponse where
  errors : Option (List ErrorEntry)
deriving DecidableEq

/-- The slice of an HTTP response the classifier reads: status, the
retry-after header (the only header consulted), and the parsed JSON body. -/
structure HttpResponse where
  status : Nat
  retryAfterHeader : Option String
  data : Option SPAPIErrorResponse
deriving DecidableEq

/-- JavaScript `a || b` on strings: the empty string is falsy. -/
def jsOrString (a b : String) : String :=
  if a = "" then b else a

/-- Accumulate the leading decimal digits of a character list. -/
def jsParseDigits : List Char → Nat → Nat
  | [], acc => acc
  | c :: rest, acc =>
    if c.isDigit then jsParseDigits rest (acc * 10 + (c.toNat - 48)) else acc

/-- JavaScript `parseInt(s, 10)`: skip leading whitespace, optional sign,
then leading decimal digits; NaN when there is no digit.  NaN is modelled
as `none`: every use site (the truthiness test in the retry loop) treats
NaN exactly like `undefined`. -/
def jsParseInt (s : String) : Option Int :=
  let cs := s.data.dropWhile Char.isWhitespace
  match cs with
  | '-' :: rest =>
    if rest.takeWhile Char.isDigit = [] then none
    else some (-(jsParseDigits (rest.takeWhile Char.isDigit) 0 : Int))
  | '+' :: rest =>
    if rest.takeWhile Char.isDigit = [] then none
    else some ((jsParseDigits (rest.takeWhile Char.isDigit) 0 : Int))
  | other =>
    if other.takeWhile Char.isDigit = [] then none
    else some ((jsParseDigits (other.takeWhile Char.isDigit) 0 : Int))

/-- The message/code/details extracted from the response body. -/
structure ParsedErrorBody where
  message : String
  code : Option String
  details : Option ErrDetails
deriving DecidableEq

/-- First block of createErrorFromResponse: default message naming the
status, overridden from the first entry of a non-empty `errors` array;
details = the full array when it has more than one entry, else the first
entry's own details field. -/
def parseErrorBody (statusCode : Nat) (data : Option SPAPIErrorResponse) : ParsedErrorBody :=
  let generic : ParsedErrorBody :=
    ⟨"SP-API request failed with status " ++ toString statusCode, none, none⟩
  match data with
  | none => generic
  | some d =>
    match d.errors with
    | none => generic
    | some [] => generic
    | some (firstError :: rest) =>
      ⟨firstError.message, some firstError.code,
        if (firstError :: rest).length > 1 then some (ErrDetails.allErrors (firstError :: rest))
        else Option.map ErrDetails.entryDetails firstError.details⟩

/-- SPAPIClient.createErrorFromResponse: classify a response with the
status chain 429 / 401-403 / 400 / other 4xx / 5xx, JavaScript `||`
fallback messages included. -/
def createErrorFromResponse (response : HttpResponse) : SPAPIError :=
  let statusCode := response.status
  let p := parseErrorBody statusCode response.data
  if statusCode = 429 then
    let retryAfter : Option Int :=
      match response.retryAfterHeader with
      | some h => jsParseInt h
      | none => none
    mkRateLimitError (jsOrString p.message "Rate limit exceeded") retryAfter p.details
  else if statusCode = 401 ∨ statusCode = 403 then
    mkSPAPIAuthError (jsOrString p.message "Authentication failed") p.details
  else if statusCode = 400 then
    mkSPAPIValidationError (jsOrString p.message "Invalid request") p.details
  else if 400 ≤ statusCode ∧ statusCode < 500 then
    mkSPAPIRequestError p.message statusCode p.code p.details
  else if 500 ≤ statusCode then
    mkSPAPIServerError p.message statusCode p.code p.details
  else
    mkSPAPIError p.message p.code (some statusCode) p.details

/-! ### Branch lemmas for createErrorFromResponse -/

lemma createError_eq_429 (r : HttpResponse) (h : r.status = 429) :
    createErrorFromResponse r =
      mkRateLimitError (jsOrString (parseErrorBody r.status r.data).message "Rate limit exceeded")
        (Option.bind r.retryAfterHeader jsParseInt) (parseErrorBody r.status r.data).details := by
  unfold createErrorFromResponse
  rw [if_pos h]
  cases r.retryAfterHeader <;> rfl

lemma createError_eq_auth (r : HttpResponse) (h : r.status = 401 ∨ r.status = 403) :
    createErrorFromResponse r =
      mkSPAPIAuthError (jsOrString (parseErrorBody r.status r.data).message "Authentication failed")
        (parseErrorBody r.status r.data).details := by
  unfold createErrorFromResponse
  rcases h with h | h <;> rw [if_neg (by omega), if_pos (by omega)]

lemma createError_eq_400 (r : HttpResponse) (h : r.status = 400) :
    createErrorFromResponse r =
      mkSPAPIValidationError (jsOrString (parseErrorBody r.status r.data).message "Invalid request")
        (parseErrorBody r.status r.data).details := by
  unfold createErrorFromResponse
  rw [if_neg (by omega), if_neg (by omega), if_pos h]

lemma createError_eq_4xx (r : HttpResponse) (h400 : 400 < r.status) (h500 : r.status < 500)
    (h429 : r.status ≠ 429) (h401 : r.status ≠ 401) (h403 : r.status ≠ 403) :
    createErrorFromResponse r =
      mkSPAPIRequestError (parseErrorBody r.status r.data).message r.status
        (parseErrorBody r.status r.data).code (parseErrorBody r.status r.data).details := by
  unfold createErrorFromResponse
  rw [if_neg h429, if_neg (by tauto), if_neg (by omega), if_pos (by omega)]

lemma createError_eq_5xx (r : HttpResponse) (h : 500 ≤ r.status) :
    createErrorFromResponse r =
      mkSPAPIServerError (parseErrorBody r.status r.data).message r.status
        (parseErrorBody r.status r.data).code (parseErrorBody r.status r.data).details := by
  unfold createErrorFromResponse
  rw [if_neg (by omega), if_neg (by omega), if_neg (by omega), if_neg (by omega), if_pos h]

lemma genericMessage_ne_empty (n : Nat) :
    "SP-API request failed with status " ++ toString n ≠ "" := by
  intro hc
  have h2 := congrArg String.length hc
  rw [String.length_append] at h2
  have h3 : String.length "SP-API request failed with status " = 34 := rfl
  have h4 : String.length "" = 0 := rfl
  rw [h3, h4] at h2
  omega

/-- When the body carries no error entries, the parsed message is the
generic one naming the status, and it is non-empty. -/
lemma parseErrorBody_generic (statusCode : Nat) (data : Option SPAPIErrorResponse)
    (h : data = none ∨ ∃ d, data = some d ∧ (d.errors = none ∨ d.errors = some [])) :
    parseErrorBody statusCode data =
      ⟨"SP-API request failed with status " ++ toString statusCode, none, none⟩ := by
  rcases h with h | ⟨d, hd, herr⟩
  · rw [h]; rfl
  · rw [hd]; rcases herr with h2 | h2 <;> simp [parseErrorBody, h2]

lemma parseErrorBody_entries (statusCode : Nat) (data : Option SPAPIErrorResponse)
    (fe : ErrorEntry) (rest : List ErrorEntry) (h : data = some ⟨some (fe :: rest)⟩) :
    parseErrorBody statusCode data =
      ⟨fe.message, some fe.code,
        if (fe :: rest).length > 1 then some (ErrDetails.allErrors (fe :: rest))
        else Option.map ErrDetails.entryDetails fe.details⟩ := by
  rw [h]; rfl


/-! ## Claim C10 -/

/-- C10: for every backend response with HTTP status 401 or 403, the
resulting auth error carries statusCode 401 and code UNAUTHORIZED; in
particular a 403 response does not keep status 403 on the error object,
because the SPAPIAuthError constructor hardcodes status 401. -/
theorem c10_auth_error_hardcodes_401 (response : HttpResponse)
    (h : response.status = 401 ∨ response.status = 403) :
    (createErrorFromResponse response).name = ErrorName.SPAPIAuthError ∧
    (createErrorFromResponse response).statusCode = some 401 ∧
    (createErrorFromResponse response).code = some "UNAUTHORIZED" ∧
    (response.status = 403 → (createErrorFromResponse response).statusCode ≠ some 403) := by
  rw [createError_eq_auth response h]
  refine ⟨rfl, rfl, rfl, fun _ hc => ?_⟩
  simp [mkSPAPIAuthError] at hc

/-- Witness for C10 at a concrete 403 response. -/
theorem c10_auth_error_hardcodes_401_witness :
    ((⟨403, none, none⟩ : HttpResponse).status = 401 ∨
      (⟨403, none, none⟩ : HttpResponse).status = 403) ∧
    (createErrorFromResponse ⟨403, none, none⟩).statusCode = some 401 :=
  ⟨Or.inr rfl, (c10_auth_error_hardcodes_401 ⟨403, none, none⟩ (Or.inr rfl)).2.1⟩

/-! ## Claim C2 -/

/-- A 429 response whose body has one error entry with the empty string as
its message: the code replaces the empty message with the constructor
fallback, the claimed rule (message taken from the first entry) does not. -/
def c2CexResponse : HttpResponse :=
  ⟨429, none, some ⟨some [⟨"QuotaExceeded", "", none⟩]⟩⟩

/-- C2 counterexample: the errors array is present and its first entry has
message "", yet the produced error message is "Rate limit exceeded", not
the first entry's message. -/
theorem c2_counterexample :
    c2CexResponse.data = some ⟨some [⟨"QuotaExceeded", "", none⟩]⟩ ∧
    (createErrorFromResponse c2CexResponse).message = "Rate limit exceeded" ∧
    (createErrorFromResponse c2CexResponse).message ≠ "" := by
  refine ⟨rfl, rfl, ?_⟩
  decide

/-- C2 (amended): classification of responses with status ≥ 400: 429 gives
a RateLimitError with status 429 and retryAfter parsed from the retry-after
header when present; 401/403 give an auth error; 400 a validation error;
any other 4xx a request error keeping the status; any 5xx a server error
keeping the status.  Message and details come from the first entry of a
non-empty `errors` array — except that when that entry's message is the
empty string, the 429/401/403/400 branches substitute their fixed fallback
messages while other branches keep the empty message — and otherwise the
message is the generic one naming the status. -/
theorem c2_error_classification (response : HttpResponse) (h : 400 ≤ response.status) :
    (response.status = 429 →
      (createErrorFromResponse response).name = ErrorName.RateLimitError ∧
      (createErrorFromResponse response).statusCode = some 429 ∧
      (createErrorFromResponse response).retryAfter =
        Option.bind response.retryAfterHeader jsParseInt) ∧
    (response.status = 401 ∨ response.status = 403 →
      (createErrorFromResponse response).name = ErrorName.SPAPIAuthError) ∧
    (response.status = 400 →
      (createErrorFromResponse response).name = ErrorName.SPAPIValidationError) ∧
    (400 < response.status → response.status < 500 → response.status ≠ 429 →
      response.status ≠ 401 → response.status ≠ 403 →
      (createErrorFromResponse response).name = ErrorName.SPAPIRequestError ∧
      (createErrorFromResponse response).statusCode = some response.status) ∧
    (500 ≤ response.status →
      (createErrorFromResponse response).name = ErrorName.SPAPIServerError ∧
      (createErrorFromResponse response).statusCode = some response.status) ∧
    (∀ fe rest, response.data = some ⟨some (fe :: rest)⟩ →
      (fe.message ≠ "" → (createErrorFromResponse response).message = fe.message) ∧
      (fe.message = "" →
        (response.status = 429 →
          (createErrorFromResponse response).message = "Rate limit exceeded") ∧
        (response.status = 401 ∨ response.status = 403 →
          (createErrorFromResponse response).message = "Authentication failed") ∧
        (response.status = 400 →
          (createErrorFromResponse response).message = "Invalid request") ∧
        (response.status ≠ 429 → response.status ≠ 401 → response.status ≠ 403 →
          response.status ≠ 400 → (createErrorFromResponse response).message = "")) ∧
      (createErrorFromResponse response).details =
        (if rest = [] then Option.map ErrDetails.entryDetails fe.details
          else some (ErrDetails.allErrors (fe :: rest)))) ∧
    ((response.data = none ∨ ∃ d, response.data = some d ∧
        (d.errors = none ∨ d.errors = some [])) →
      (createErrorFromResponse response).message =
        "SP-API request failed with status " ++ toString response.status) := by
  refine ⟨?_, ?_, ?_, ?_, ?_, ?_, ?_⟩
  · intro h429
    rw [createError_eq_429 response h429]
    exact ⟨rfl, rfl, rfl⟩
  · intro hauth
    rw [createError_eq_auth response hauth]
    exact rfl
  · intro h400
    rw [createError_eq_400 response h400]
    exact rfl
  · intro h1 h2 h3 h4 h5
    rw [createError_eq_4xx response h1 h2 h3 h4 h5]
    exact ⟨rfl, rfl⟩
  · intro h5xx
    rw [createError_eq_5xx response h5xx]
    exact ⟨rfl, rfl⟩
  · intro fe rest hdata
    have hp := parseErrorBody_entries response.status response.data fe rest hdata
    by_cases h429 : response.status = 429
    · rw [createError_eq_429 response h429, hp]
      refine ⟨fun hne => ?_, fun hemp => ?_, ?_⟩
      · simp [mkRateLimitError, jsOrString, hne]
      · exact ⟨fun _ => by simp [mkRateLimitError, jsOrString, hemp],
          fun hc => by rcases hc with h1 | h1 <;> omega,
          fun hc => by omega, fun hc _ _ _ => absurd h429 hc⟩
      · cases rest <;> simp [mkRateLimitError]
    · by_cases hauth : response.status = 401 ∨ response.status = 403
      · rw [createError_eq_auth response hauth, hp]
        refine ⟨fun hne => ?_, fun hemp => ?_, ?_⟩
        · simp [mkSPAPIAuthError, jsOrString, hne]
        · refine ⟨fun hc => absurd hc h429, fun _ => ?_, fun hc => ?_, ?_⟩
          · simp [mkSPAPIAuthError, jsOrString, hemp]
          · rcases hauth with h1 | h1 <;> omega
          · intro _ hn1 hn3 _
            rcases hauth with h1 | h1
            · exact absurd h1 hn1
            · exact absurd h1 hn3
        · cases rest <;> simp [mkSPAPIAuthError]
      · by_cases h400e : response.status = 400
        · rw [createError_eq_400 response h400e, hp]
          refine ⟨fun hne => ?_, fun hemp => ?_, ?_⟩
          · simp [mkSPAPIValidationError, jsOrString, hne]
          · refine ⟨fun hc => absurd hc h429, fun hc => absurd hc hauth,
              fun _ => ?_, fun _ _ _ hc => absurd h400e hc⟩
            simp [mkSPAPIValidationError, jsOrString, hemp]
          · cases rest <;> simp [mkSPAPIValidationError]
        · push_neg at hauth
          by_cases h5 : 500 ≤ response.status
          · rw [createError_eq_5xx response h5, hp]
            refine ⟨fun _ => rfl, fun hemp => ?_,
              by cases rest <;> simp [mkSPAPIServerError]⟩
            exact ⟨fun hc => absurd hc h429, fun hc => by tauto,
              fun hc => absurd hc h400e, fun _ _ _ _ => hemp⟩
          · have h1 : 400 < response.status := by omega
            have h2 : response.status < 500 := by omega
            rw [createError_eq_4xx response h1 h2 h429 hauth.1 hauth.2, hp]
            refine ⟨fun _ => rfl, fun hemp => ?_,
              by cases rest <;> simp [mkSPAPIRequestError]⟩
            exact ⟨fun hc => absurd hc h429, fun hc => by tauto,
              fun hc => absurd hc h400e, fun _ _ _ _ => hemp⟩
  · intro hgen
    have hp := parseErrorBody_generic response.status response.data hgen
    have hne := genericMessage_ne_empty response.status
    by_cases h429 : response.status = 429
    · rw [createError_eq_429 response h429, hp]
      simp [mkRateLimitError, jsOrString, hne]
    · by_cases hauth : response.status = 401 ∨ response.status = 403
      · rw [createError_eq_auth response hauth, hp]
        simp [mkSPAPIAuthError, jsOrString, hne]
      · by_cases h400e : response.status = 400
        · rw [createError_eq_400 response h400e, hp]
          simp [mkSPAPIValidationError, jsOrString, hne]
        · push_neg at hauth
          by_cases h5 : 500 ≤ response.status
          · rw [createError_eq_5xx response h5, hp]
            rfl
          · have h1 : 400 < response.status := by omega
            have h2 : response.status < 500 := by omega
            rw [createError_eq_4xx response h1 h2 h429 hauth.1 hauth.2, hp]
            rfl

/-- Witness for C2 at the spec scenario: status 429 with retry-after "60"
gives a RateLimitError with retryAfterSeconds 60. -/
theorem c2_error_classification_witness :
    (400 ≤ (⟨429, some "60", none⟩ : HttpResponse).status) ∧
    (createErrorFromResponse ⟨429, some "60", none⟩).name = ErrorName.RateLimitError ∧
    (createErrorFromResponse ⟨429, some "60", none⟩).retryAfter = some 60 := by
  have h := (c2_error_classification ⟨429, some "60", none⟩ (by decide)).1 rfl
  refine ⟨by decide, h.1, ?_⟩
  rw [h.2.2]
  decide

/-! ## Retry orchestration (SPAPIClient.request / requestWithRetry /
isRetryableError, src part_004 lines 82-121 and 257-267)

One transport attempt is modelled by its observable outcome: an HTTP
response (the transport never throws on 4xx/5xx, `validateStatus` accepts
everything), or a transport-level failure.  The backend is a function from
the attempt number to that outcome.  makeRequest turns the outcome into
either a success status or the thrown SPAPIError, exactly as the client
does; token fetching and signing do not influence the claims below and are
not observable in the returned value. -/

/-- Retry configuration (interface RetryConfig in sp-api.d.ts). -/
structure RetryConfig where
  maxRetries : Nat
  retryableStatusCodes : List Nat
  retryDelay : Int
  backoffMultiplier : Int
deriving DecidableEq

/-- DEFAULT_RETRY_CONFIG from sp-api-client. -/
def DEFAULT_RETRY_CONFIG : RetryConfig :=
  ⟨3, [429, 500, 502, 503, 504], 1000, 2⟩

/-- Observable outcome of one transport attempt. -/
inductive AttemptOutcome where
  | httpResponse : HttpResponse → AttemptOutcome
  | timeout : AttemptOutcome
  | networkFailure : AttemptOutcome
deriving DecidableEq

/-- SPAPIClient.makeRequest: statuses >= 400 become classified errors, a
transport timeout or connection failure becomes a generic SPAPIError with
no statusCode (createErrorFromAxiosError), anything else succeeds with the
status. -/
def makeRequest (outcome : AttemptOutcome) : Except SPAPIError Nat :=
  match outcome with
  | AttemptOutcome.httpResponse response =>
    if 400 ≤ response.status then Except.error (createErrorFromResponse response)
    else Except.ok response.status
  | AttemptOutcome.timeout =>
    Except.error (mkSPAPIError "Request timeout" none none none)
  | AttemptOutcome.networkFailure =>
    Except.error (mkSPAPIError "Network error: Unable to reach SP-API" none none none)

/-- SPAPIClient.isRetryableError: false for a missing statusCode — in
JavaScript `!error.statusCode` is also true for statusCode 0 — else
membership in retryableStatusCodes. -/
def isRetryableError (cfg : RetryConfig) (e : SPAPIError) : Bool :=
  match e.statusCode with
  | none => false
  | some s => if s = 0 then false else decide (s ∈ cfg.retryableStatusCodes)

/-- The delay slept before the retry of attempt `attemptNumber`:
`retryDelay * backoffMultiplier ^ attemptNumber`, replaced by
`retryAfter * 1000` when the error is a RateLimitError whose retryAfter is
truthy (present and non-zero; NaN is modelled as absent). -/
def retryDelayFor (cfg : RetryConfig) (e : SPAPIError) (attemptNumber : Nat) : Int :=
  let delay := cfg.retryDelay * cfg.backoffMultiplier ^ attemptNumber
  match e.retryAfter with
  | some ra =>
    if e.name = ErrorName.RateLimitError ∧ ra ≠ 0 then ra * 1000 else delay
  | none => delay

instance : DecidableEq (Except SPAPIError Nat) := fun a b =>
  match a, b with
  | Except.ok x, Except.ok y =>
    match decEq x y with
    | isTrue h => isTrue (congrArg Except.ok h)
    | isFalse h => isFalse (fun hc => h (Except.ok.inj hc))
  | Except.error x, Except.error y =>
    match decEq x y with
    | isTrue h => isTrue (congrArg Except.error h)
    | isFalse h => isFalse (fun hc => h (Except.error.inj hc))
  | Except.ok _, Except.error _ => isFalse (fun hc => Except.noConfusion hc)
  | Except.error _, Except.ok _ => isFalse (fun hc => Except.noConfusion hc)

/-- Observable result of the retry loop: the final outcome, the number of
transport attempts made, the number of rate-limiter acquisitions performed,
and the list of backoff sleeps in order. -/
structure RetryResult where
  result : Except SPAPIError Nat
  attempts : Nat
  acquires : Nat
  delays : List Int
deriving DecidableEq

/-- SPAPIClient.requestWithRetry, with the recursion made structural on
`budget`, invoked with budget = maxRetries - attemptNumber so that the
JavaScript guard `attemptNumber < maxRetries` is exactly `budget ≠ 0`
(requestWithRetry_eq below re-establishes the original guard shape).  The
body performs no rate-limiter acquisition, hence acquires = 0 throughout,
matching the absence of any acquire call in the source. -/
def requestWithRetryGo (cfg : RetryConfig) (backend : Nat → AttemptOutcome) :
    Nat → Nat → RetryResult
  | attemptNumber, budget =>
    match makeRequest (backend attemptNumber) with
    | Except.ok status => ⟨Except.ok status, 1, 0, []⟩
    | Except.error e =>
      match budget with
      | 0 => ⟨Except.error e, 1, 0, []⟩
      | b + 1 =>
        if isRetryableError cfg e then
          let rest := requestWithRetryGo cfg backend (attemptNumber + 1) b
          ⟨rest.result, rest.attempts + 1, rest.acquires,
            retryDelayFor cfg e attemptNumber :: rest.delays⟩
        else ⟨Except.error e, 1, 0, []⟩

/-- requestWithRetry(options, attemptNumber). -/
def requestWithRetry (cfg : RetryConfig) (backend : Nat → AttemptOutcome)
    (attemptNumber : Nat) : RetryResult :=
  requestWithRetryGo cfg backend attemptNumber (cfg.maxRetries - attemptNumber)

/-- The translated recursion satisfies the equation of the source code:
retry exactly when `attemptNumber < maxRetries` and the error is
retryable. -/
lemma requestWithRetry_eq (cfg : RetryConfig) (backend : Nat → AttemptOutcome) (n : Nat) :
    requestWithRetry cfg backend n =
      match makeRequest (backend n) with
      | Except.ok status => ⟨Except.ok status, 1, 0, []⟩
      | Except.error e =>
        if n < cfg.maxRetries ∧ isRetryableError cfg e = true then
          ⟨(requestWithRetry cfg backend (n + 1)).result,
            (requestWithRetry cfg backend (n + 1)).attempts + 1,
            (requestWithRetry cfg backend (n + 1)).acquires,
            retryDelayFor cfg e n :: (requestWithRetry cfg backend (n + 1)).delays⟩
        else ⟨Except.error e, 1, 0, []⟩ := by
  unfold requestWithRetry
  rw [requestWithRetryGo]
  rcases Nat.lt_or_ge n cfg.maxRetries with hlt | hge
  · have hb : cfg.maxRetries - n = (cfg.maxRetries - (n + 1)) + 1 := by omega
    rw [hb]
    cases hm : makeRequest (backend n) with
    | ok status => rfl
    | error e =>
      by_cases hr : isRetryableError cfg e
      · simp [hr, hlt]
      · simp [hr]
  · have hb : cfg.maxRetries - n = 0 := by omega
    rw [hb]
    cases hm : makeRequest (backend n) with
    | ok status => rfl
    | error e => simp [Nat.not_lt.mpr hge]

/-- SPAPIClient.request: one rate-limiter acquisition, then the retry loop
starting at attempt 0. -/
def request (cfg : RetryConfig) (backend : Nat → AttemptOutcome) : RetryResult :=
  let r := requestWithRetry cfg backend 0
  ⟨r.result, r.attempts, r.acquires + 1, r.delays⟩

lemma requestWithRetryGo_acquires (cfg : RetryConfig) (backend : Nat → AttemptOutcome)
    (n budget : Nat) : (requestWithRetryGo cfg backend n budget).acquires = 0 := by
  induction budget generalizing n with
  | zero => rw [requestWithRetryGo]; cases makeRequest (backend n) <;> rfl
  | succ b ih =>
    rw [requestWithRetryGo]
    cases makeRequest (backend n) with
    | ok status => rfl
    | error e =>
      by_cases hr : isRetryableError cfg e
      · simp only [if_pos hr]
        exact ih (n + 1)
      · simp only [if_neg hr]

lemma requestWithRetryGo_attempts_pos (cfg : RetryConfig) (backend : Nat → AttemptOutcome)
    (n budget : Nat) : 1 ≤ (requestWithRetryGo cfg backend n budget).attempts := by
  rw [requestWithRetryGo]
  cases makeRequest (backend n) with
  | ok status => exact Nat.le_refl 1
  | error e =>
    cases budget with
    | zero => exact Nat.le_refl 1
    | succ b =>
      by_cases hr : isRetryableError cfg e
      · simp only [if_pos hr]; omega
      · simp only [if_neg hr]; omega

lemma requestWithRetryGo_attempts_le (cfg : RetryConfig) (backend : Nat → AttemptOutcome)
    (n budget : Nat) : (requestWithRetryGo cfg backend n budget).attempts ≤ budget + 1 := by
  induction budget generalizing n with
  | zero => rw [requestWithRetryGo]; cases makeRequest (backend n) <;> simp
  | succ b ih =>
    rw [requestWithRetryGo]
    cases makeRequest (backend n) with
    | ok status => simp
    | error e =>
      by_cases hr : isRetryableError cfg e
      · simp only [if_pos hr]
        have := ih (n + 1)
        omega
      · simp only [if_neg hr]; simp

/-- Every error classified from a response with status >= 400 carries a
statusCode, and that statusCode is >= 400 (429/401/400 for the dedicated
branches, the original status otherwise). -/
lemma createError_statusCode_ge_400 (r : HttpResponse) (h : 400 ≤ r.status) :
    ∃ s, (createErrorFromResponse r).statusCode = some s ∧ 400 ≤ s := by
  by_cases h429 : r.status = 429
  · exact ⟨429, by rw [createError_eq_429 r h429]; rfl, by omega⟩
  · by_cases hauth : r.status = 401 ∨ r.status = 403
    · exact ⟨401, by rw [createError_eq_auth r hauth]; rfl, by omega⟩
    · by_cases h400 : r.status = 400
      · exact ⟨400, by rw [createError_eq_400 r h400]; rfl, by omega⟩
      · push_neg at hauth
        by_cases h5 : 500 ≤ r.status
        · exact ⟨r.status, by rw [createError_eq_5xx r h5]; rfl, by omega⟩
        · have h1 : 400 < r.status := by omega
          have h2 : r.status < 500 := by omega
          exact ⟨r.status, by rw [createError_eq_4xx r h1 h2 h429 hauth.1 hauth.2]; rfl, by omega⟩

/-- Errors thrown by makeRequest either have no statusCode (transport
failures) or a statusCode >= 400. -/
lemma makeRequest_error_statusCode (o : AttemptOutcome) (e : SPAPIError)
    (h : makeRequest o = Except.error e) :
    e.statusCode = none ∨ ∃ s, e.statusCode = some s ∧ 400 ≤ s := by
  cases o with
  | httpResponse r =>
    simp only [makeRequest] at h
    by_cases hs : 400 ≤ r.status
    · rw [if_pos hs] at h
      right
      exact Except.error.inj h ▸ createError_statusCode_ge_400 r hs
    · rw [if_neg hs] at h
      exact Except.noConfusion h
  | timeout =>
    left
    cases h
    rfl
  | networkFailure =>
    left
    cases h
    rfl

/-- For errors as thrown by makeRequest, the JavaScript retryability test
is exactly: the statusCode exists and is whitelisted. -/
lemma isRetryableError_iff (cfg : RetryConfig) (o : AttemptOutcome) (e : SPAPIError)
    (h : makeRequest o = Except.error e) :
    isRetryableError cfg e = true ↔
      ∃ s, e.statusCode = some s ∧ s ∈ cfg.retryableStatusCodes := by
  rcases makeRequest_error_statusCode o e h with hn | ⟨s, hs, hge⟩
  · simp [isRetryableError, hn]
  · simp only [isRetryableError, hs]
    rw [if_neg (by omega)]
    constructor
    · intro hd
      exact ⟨s, rfl, of_decide_eq_true hd⟩
    · rintro ⟨s2, hs2, hmem⟩
      cases Option.some.inj hs2
      exact decide_eq_true hmem

/-! ## Claim C1 -/

/-- A backend that always answers 503 with an empty body. -/
def backend503 : Nat → AttemptOutcome :=
  fun _ => AttemptOutcome.httpResponse ⟨503, none, none⟩

/-- C1 counterexample: with the default config against an always-503
backend the call makes 4 transport attempts but performs exactly one
rate-limit acquisition — not one acquisition per attempt as the claimed
RETRY -> ACQUIRE_SLOT transition would require. -/
theorem c1_counterexample :
    (request DEFAULT_RETRY_CONFIG backend503).acquires = 1 ∧
    (request DEFAULT_RETRY_CONFIG backend503).attempts = 4 ∧
    (1 : Nat) ≠ 4 := by
  refine ⟨?_, ?_, by omega⟩ <;> decide

/-- C1 (amended): for every call to request, the rate-limit slot is
acquired exactly once, before the first transport attempt; retries re-enter
the token/sign/send sequence directly and do not acquire a new slot. -/
theorem c1_slot_acquired_once (cfg : RetryConfig) (backend : Nat → AttemptOutcome) :
    (request cfg backend).acquires = 1 ∧ 1 ≤ (request cfg backend).attempts := by
  constructor
  · show (requestWithRetryGo cfg backend 0 (cfg.maxRetries - 0)).acquires + 1 = 1
    rw [requestWithRetryGo_acquires]
  · show 1 ≤ (requestWithRetryGo cfg backend 0 (cfg.maxRetries - 0)).attempts
    exact requestWithRetryGo_attempts_pos cfg backend 0 (cfg.maxRetries - 0)

/-! ## Claim C3 -/

/-- A 429 response carrying retry-after "0": the RateLimited error carries
retryAfterSeconds = 0, but JavaScript `error.retryAfter` is falsy for 0, so
the computed exponential delay is used instead of the claimed 0 * 1000. -/
def resp429zero : HttpResponse := ⟨429, some "0", none⟩

/-- C3 counterexample: against a backend always answering 429 with
retry-after "0", the first retry sleeps 1000 ms (the computed backoff), not
the 0 ms that the claimed retryAfterSeconds override would give, although
the error is RateLimited and carries retryAfterSeconds = 0. -/
theorem c3_counterexample :
    (createErrorFromResponse resp429zero).name = ErrorName.RateLimitError ∧
    (createErrorFromResponse resp429zero).retryAfter = some 0 ∧
    (requestWithRetry DEFAULT_RETRY_CONFIG (fun _ => AttemptOutcome.httpResponse resp429zero)
        0).delays.head? = some 1000 ∧
    (1000 : Int) ≠ 0 * 1000 := by
  refine ⟨by decide, by decide, by decide, by decide⟩

/-- C3 (amended): an attempt failing with error e is retried iff e carries
a statusCode that is in retryableStatusCodes and the number of prior
attempts is below maxRetries; the delay before the retry of attempt n is
retryDelay * backoffMultiplier ^ n, except for RateLimited errors carrying
a non-zero retryAfterSeconds, where retryAfterSeconds * 1000 ms is slept
instead; and against an always-503 backend the default config makes
exactly 4 transport attempts, sleeps 1s, 2s, 4s, and ends with the
ServerFault error for status 503. -/
theorem c3_retry_policy :
    (∀ (cfg : RetryConfig) (backend : Nat → AttemptOutcome) (n : Nat),
      2 ≤ (requestWithRetry cfg backend n).attempts ↔
        (n < cfg.maxRetries ∧ ∃ e s, makeRequest (backend n) = Except.error e ∧
          e.statusCode = some s ∧ s ∈ cfg.retryableStatusCodes)) ∧
    (∀ (cfg : RetryConfig) (backend : Nat → AttemptOutcome) (n : Nat) (e : SPAPIError),
      makeRequest (backend n) = Except.error e →
      n < cfg.maxRetries → isRetryableError cfg e = true →
      (∀ ra, e.name = ErrorName.RateLimitError → e.retryAfter = some ra → ra ≠ 0 →
        (requestWithRetry cfg backend n).delays.head? = some (ra * 1000)) ∧
      ((e.name ≠ ErrorName.RateLimitError ∨ e.retryAfter = none ∨ e.retryAfter = some 0) →
        (requestWithRetry cfg backend n).delays.head? =
          some (cfg.retryDelay * cfg.backoffMultiplier ^ n))) ∧
    ((request DEFAULT_RETRY_CONFIG backend503).attempts = 4 ∧
      (request DEFAULT_RETRY_CONFIG backend503).delays = [1000, 2000, 4000] ∧
      (request DEFAULT_RETRY_CONFIG backend503).result =
        Except.error (createErrorFromResponse ⟨503, none, none⟩) ∧
      (createErrorFromResponse ⟨503, none, none⟩).name = ErrorName.SPAPIServerError ∧
      (createErrorFromResponse ⟨503, none, none⟩).statusCode = some 503) := by
  refine ⟨?_, ?_, by decide, by decide, by decide, by decide, by decide⟩
  · intro cfg backend n
    rw [requestWithRetry_eq]
    cases hm : makeRequest (backend n) with
    | ok status =>
      simp only []
      constructor
      · intro h2; omega
      · rintro ⟨-, e, s, hme, -⟩
        exact Except.noConfusion hme
    | error e =>
      simp only []
      by_cases hc : n < cfg.maxRetries ∧ isRetryableError cfg e = true
      · rw [if_pos hc]
        constructor
        · intro _
          refine ⟨hc.1, e, ?_⟩
          rcases (isRetryableError_iff cfg (backend n) e hm).mp hc.2 with ⟨s, hs, hmem⟩
          exact ⟨s, rfl, hs, hmem⟩
        · intro _
          have := requestWithRetryGo_attempts_pos cfg backend (n + 1) (cfg.maxRetries - (n + 1))
          simp only [requestWithRetry]
          omega
      · rw [if_neg hc]
        constructor
        · intro h2; simp at h2
        · rintro ⟨hlt, e2, s, hme, hsc, hmem⟩
          cases Except.error.inj hme
          exact absurd ⟨hlt, (isRetryableError_iff cfg (backend n) e hm).mpr ⟨s, hsc, hmem⟩⟩ hc
  · intro cfg backend n e hm hlt hr
    rw [requestWithRetry_eq, hm]
    simp only []
    rw [if_pos (show n < cfg.maxRetries ∧ isRetryableError cfg e = true from ⟨hlt, hr⟩)]
    constructor
    · intro ra hname hra hra0
      simp only [List.head?_cons, retryDelayFor, hra]
      rw [if_pos ⟨hname, hra0⟩]
    · intro hcond
      simp only [List.head?_cons, retryDelayFor]
      rcases hcond with hname | hnone | hzero
      · cases hra : e.retryAfter with
        | none => rfl
        | some ra => simp [hname]
      · rw [hnone]
      · rw [hzero]
        simp

/-- Witness for C3: a 429 with retry-after "60" is retried and the first
sleep is 60 * 1000 ms. -/
theorem c3_retry_policy_witness :
    (requestWithRetry DEFAULT_RETRY_CONFIG
        (fun _ => AttemptOutcome.httpResponse ⟨429, some "60", none⟩) 0).delays.head? =
      some 60000 :=
  (c3_retry_policy.2.1 DEFAULT_RETRY_CONFIG
      (fun _ => AttemptOutcome.httpResponse ⟨429, some "60", none⟩) 0
      (createErrorFromResponse ⟨429, some "60", none⟩)
      (by decide) (by decide) (by decide)).1 60 (by decide) (by decide) (by decide)

/-! ## Rate limiter (src part_005: rate-limiter.ts)

Token counts and timestamps are JavaScript numbers used with exact small
arithmetic in the tests of interest; they are modelled as rationals.
`Date.now()` is passed in explicitly as `now` at each entry point.  The
JavaScript `Map` is modelled as an association list with first-match
lookup and in-place update on set. -/

/-- Per-key configuration (interface RateLimitConfig). -/
structure RateLimitConfig where
  maxRequests : ℚ
  windowMs : ℚ
  queueRequests : Option Bool
deriving DecidableEq

/-- interface TokenBucket. -/
structure TokenBucket where
  tokens : ℚ
  lastRefill : ℚ
deriving DecidableEq

/-- One entry of the wait queue: key, the caller whose promise resolution
it holds, and its enqueue time. -/
structure QueuedRequest where
  key : String
  callerId : Nat
  enqueueTime : ℚ
deriving DecidableEq

/-- The mutable state of a RateLimiter instance. -/
structure RateLimiter where
  configs : List (String × RateLimitConfig)
  buckets : List (String × TokenBucket)
  queue : List QueuedRequest
  processingQueue : Bool
deriving DecidableEq

/-- JavaScript Map.get. -/
def mapGet {α : Type} (m : List (String × α)) (k : String) : Option α :=
  match m with
  | [] => none
  | (k0, v) :: rest => if k0 = k then some v else mapGet rest k

/-- JavaScript Map.set: replace in place, else append. -/
def mapSet {α : Type} (m : List (String × α)) (k : String) (v : α) : List (String × α) :=
  match m with
  | [] => [(k, v)]
  | (k0, v0) :: rest => if k0 = k then (k, v) :: rest else (k0, v0) :: mapSet rest k v

lemma mapGet_mapSet_self {α : Type} (m : List (String × α)) (k : String) (v : α) :
    mapGet (mapSet m k v) k = some v := by
  induction m with
  | nil => simp [mapGet, mapSet]
  | cons p rest ih =>
    by_cases h : p.1 = k
    · simp [mapGet, mapSet, h]
    · simp [mapGet, mapSet, h, ih]

lemma mapGet_mapSet_ne {α : Type} (m : List (String × α)) (k k2 : String) (v : α)
    (h : k ≠ k2) : mapGet (mapSet m k v) k2 = mapGet m k2 := by
  induction m with
  | nil => simp [mapGet, mapSet, h]
  | cons p rest ih =>
    by_cases h0 : p.1 = k
    · simp [mapGet, mapSet, h0, h]
    · simp only [mapSet, if_neg h0, mapGet]
      by_cases h2 : p.1 = k2 <;> simp [h2, ih]

/-- RateLimiter.refillBucket: add elapsed/window * capacity tokens, capped
at capacity, and stamp the refill time. -/
def refillBucket (bucket : TokenBucket) (config : RateLimitConfig) (now : ℚ) : TokenBucket :=
  let timePassed := now - bucket.lastRefill
  let tokensToAdd := timePassed / config.windowMs * config.maxRequests
  ⟨min config.maxRequests (bucket.tokens + tokensToAdd), now⟩

/-- RateLimiter.calculateWaitTime: time for one whole token to accrue. -/
def calculateWaitTime (bucket : TokenBucket) (config : RateLimitConfig) : ℚ :=
  (1 - bucket.tokens) / config.maxRequests * config.windowMs

/-- RateLimiter.getOrCreateBucket: existing bucket, or a full bucket
stamped now. -/
def getOrCreateBucket (rl : RateLimiter) (key : String) (config : RateLimitConfig)
    (now : ℚ) : TokenBucket × RateLimiter :=
  match mapGet rl.buckets key with
  | some bucket => (bucket, rl)
  | none =>
    let bucket : TokenBucket := ⟨config.maxRequests, now⟩
    (bucket, { rl with buckets := mapSet rl.buckets key bucket })

/-- Result of one acquire call. -/
inductive AcquireResult where
  | granted
  | queued
  | configurationError (key : String)
  | rateLimitExceeded (waitTime : ℚ)
deriving DecidableEq

/-- RateLimiter.acquire(key): error on unknown key; refill; consume a token
when at least one is available; else fail when queueing is disabled
(queueRequests === false), else append the caller to the wait queue.
The refilled bucket is written back in every branch, mirroring the
in-place mutation of the source. -/
def acquire (rl : RateLimiter) (key : String) (callerId : Nat) (now : ℚ) :
    AcquireResult × RateLimiter :=
  match mapGet rl.configs key with
  | none => (AcquireResult.configurationError key, rl)
  | some config =>
    let br := getOrCreateBucket rl key config now
    let bucket := refillBucket br.1 config now
    if 1 ≤ bucket.tokens then
      (AcquireResult.granted,
        { br.2 with buckets := mapSet br.2.buckets key ⟨bucket.tokens - 1, bucket.lastRefill⟩ })
    else if config.queueRequests = some false then
      (AcquireResult.rateLimitExceeded (calculateWaitTime bucket config),
        { br.2 with buckets := mapSet br.2.buckets key bucket })
    else
      (AcquireResult.queued,
        { br.2 with
          buckets := mapSet br.2.buckets key bucket
          queue := br.2.queue ++ [⟨key, callerId, now⟩] })

/-- RateLimiter.getAvailableTokens(key): 0 for an unknown key, the full
capacity when no bucket exists yet, else the floor of the refilled token
count — the refilled (fractional) count is stored back, only the report is
floored. -/
def getAvailableTokens (rl : RateLimiter) (key : String) (now : ℚ) : ℚ × RateLimiter :=
  match mapGet rl.configs key with
  | none => (0, rl)
  | some config =>
    match mapGet rl.buckets key with
    | none => (config.maxRequests, rl)
    | some bucket =>
      let b := refillBucket bucket config now
      (((⌊b.tokens⌋ : ℤ) : ℚ), { rl with buckets := mapSet rl.buckets key b })

/-- RateLimiter.reset: clear buckets, queue, and the drain flag. -/
def reset (rl : RateLimiter) : RateLimiter :=
  { rl with buckets := [], queue := [], processingQueue := false }

/-- What one iteration of the processQueue drain loop did. -/
inductive DrainAction where
  | idle
  | grantedHead (callerId : Nat)
  | removedInvalid (callerId : Nat)
  | slept (waitTime : ℚ)
deriving DecidableEq

/-- One iteration of the processQueue while-loop at time `now`: inspect the
head of the queue; drop and resolve it when its key has no config; grant,
dequeue and resolve when a token is available after refill; otherwise
sleep for the time one token needs to accrue.  (`idle` is the loop exit on
an empty queue.) -/
def processQueueIteration (rl : RateLimiter) (now : ℚ) : DrainAction × RateLimiter :=
  match rl.queue with
  | [] => (DrainAction.idle, rl)
  | request :: rest =>
    match mapGet rl.configs request.key with
    | none => (DrainAction.removedInvalid request.callerId, { rl with queue := rest })
    | some config =>
      let br := getOrCreateBucket rl request.key config now
      let bucket := refillBucket br.1 config now
      if 1 ≤ bucket.tokens then
        (DrainAction.grantedHead request.callerId,
          { br.2 with
            buckets := mapSet br.2.buckets request.key ⟨bucket.tokens - 1, bucket.lastRefill⟩
            queue := rest })
      else
        (DrainAction.slept (calculateWaitTime bucket config),
          { br.2 with buckets := mapSet br.2.buckets request.key bucket })

/-- DEFAULT_RATE_LIMITS from rate-limiter.ts. -/
def DEFAULT_RATE_LIMITS : List (String × RateLimitConfig) :=
  [("orders", ⟨1, 60 * 1000, some true⟩),
   ("inventory", ⟨2, 1000, some true⟩),
   ("reports", ⟨1, 45 * 1000, some true⟩),
   ("products", ⟨5, 1000, some true⟩),
   ("default", ⟨1, 1000, some true⟩)]

/-! ### Refill facts -/

lemma refillBucket_le_max (b : TokenBucket) (cfg : RateLimitConfig) (now : ℚ) :
    (refillBucket b cfg now).tokens ≤ cfg.maxRequests :=
  min_le_left _ _

lemma refillBucket_lastRefill (b : TokenBucket) (cfg : RateLimitConfig) (now : ℚ) :
    (refillBucket b cfg now).lastRefill = now := rfl

lemma tokensToAdd_nonneg (b : TokenBucket) (cfg : RateLimitConfig) (now : ℚ)
    (hmax : 0 ≤ cfg.maxRequests) (hw : 0 < cfg.windowMs) (ht : b.lastRefill ≤ now) :
    0 ≤ (now - b.lastRefill) / cfg.windowMs * cfg.maxRequests :=
  mul_nonneg (div_nonneg (sub_nonneg.mpr ht) hw.le) hmax

lemma refillBucket_nonneg (b : TokenBucket) (cfg : RateLimitConfig) (now : ℚ)
    (h0 : 0 ≤ b.tokens) (hmax : 0 ≤ cfg.maxRequests) (hw : 0 < cfg.windowMs)
    (ht : b.lastRefill ≤ now) : 0 ≤ (refillBucket b cfg now).tokens :=
  le_min hmax (add_nonneg h0 (tokensToAdd_nonneg b cfg now hmax hw ht))

lemma refillBucket_tokens_mono (b : TokenBucket) (cfg : RateLimitConfig) (now : ℚ)
    (hle : b.tokens ≤ cfg.maxRequests) (hmax : 0 ≤ cfg.maxRequests) (hw : 0 < cfg.windowMs)
    (ht : b.lastRefill ≤ now) : b.tokens ≤ (refillBucket b cfg now).tokens :=
  le_min hle (le_add_of_nonneg_right (tokensToAdd_nonneg b cfg now hmax hw ht))

/-! ## Claim C4 -/

/-- C4: after reset(), getAvailableTokens(key) equals the configured
capacity for every configured key, the wait queue is empty, and no entry
that was queued before the reset remains in it. -/
theorem c4_reset_restores_capacity (rl : RateLimiter) (key : String) (cfg : RateLimitConfig)
    (now : ℚ) (h : mapGet rl.configs key = some cfg) :
    (getAvailableTokens (reset rl) key now).1 = cfg.maxRequests ∧
    (reset rl).queue = [] ∧
    ∀ q, q ∈ rl.queue → q ∉ (reset rl).queue := by
  refine ⟨?_, rfl, by simp [reset]⟩
  unfold getAvailableTokens reset
  simp only []
  rw [show mapGet rl.configs key = some cfg from h]
  rfl

/-- Witness for C4 at a limiter with a drained bucket and a queued caller. -/
theorem c4_reset_restores_capacity_witness :
    (mapGet (⟨[("orders", ⟨1, 60000, some true⟩)], [("orders", ⟨0, 5⟩)],
        [⟨"orders", 7, 1⟩], true⟩ : RateLimiter).configs "orders" =
      some ⟨1, 60000, some true⟩) ∧
    (getAvailableTokens (reset ⟨[("orders", ⟨1, 60000, some true⟩)], [("orders", ⟨0, 5⟩)],
        [⟨"orders", 7, 1⟩], true⟩) "orders" 123).1 = (1 : ℚ) :=
  ⟨by decide,
    (c4_reset_restores_capacity
      ⟨[("orders", ⟨1, 60000, some true⟩)], [("orders", ⟨0, 5⟩)], [⟨"orders", 7, 1⟩], true⟩
      "orders" ⟨1, 60000, some true⟩ 123 (by decide)).1⟩

/-! ## Claim C9 -/

/-- The limiter used for the fractional-retention scenario: capacity 1 per
1000 ms, bucket empty at time 0. -/
def fracLimiter : RateLimiter :=
  ⟨[("default", ⟨1, 1000, some true⟩)], [("default", ⟨0, 0⟩)], [], false⟩

/-- getAvailableTokens when the key is configured and a bucket exists:
report the floor, store the refilled bucket, keep configs. -/
lemma getAvailableTokens_found (rl : RateLimiter) (key : String) (cfg : RateLimitConfig)
    (b : TokenBucket) (now : ℚ) (hcfg : mapGet rl.configs key = some cfg)
    (hb : mapGet rl.buckets key = some b) :
    (getAvailableTokens rl key now).1 = ((⌊(refillBucket b cfg now).tokens⌋ : ℤ) : ℚ) ∧
    (getAvailableTokens rl key now).2.configs = rl.configs ∧
    (getAvailableTokens rl key now).2.buckets =
      mapSet rl.buckets key (refillBucket b cfg now) := by
  unfold getAvailableTokens
  rw [hcfg, hb]
  exact ⟨rfl, rfl, rfl⟩

/-- C9: two getAvailableTokens calls for a configured key with no
intervening acquisition and non-negative elapsed time never decrease; and
flooring happens only in the report: reading the fracLimiter at t = 500
reports 0 while storing the fractional count 1/2, so the next read at
t = 1000 reports a full token — impossible had the floored value been
stored. -/
theorem c9_avail_monotone :
    (∀ (rl : RateLimiter) (key : String) (cfg : RateLimitConfig) (b : TokenBucket) (t1 t2 : ℚ),
      mapGet rl.configs key = some cfg →
      0 ≤ cfg.maxRequests → 0 < cfg.windowMs →
      mapGet rl.buckets key = some b →
      0 ≤ b.tokens → b.tokens ≤ cfg.maxRequests → b.lastRefill ≤ t1 → t1 ≤ t2 →
      (getAvailableTokens rl key t1).1 ≤
        (getAvailableTokens (getAvailableTokens rl key t1).2 key t2).1) ∧
    ((getAvailableTokens fracLimiter "default" 500).1 = 0 ∧
      mapGet (getAvailableTokens fracLimiter "default" 500).2.buckets "default" =
        some ⟨1 / 2, 500⟩ ∧
      (getAvailableTokens (getAvailableTokens fracLimiter "default" 500).2 "default" 1000).1
        = 1) := by
  constructor
  · intro rl key cfg b t1 t2 hcfg hmax hw hb h0 hle ht1 h12
    obtain ⟨hv1, hc1, hbk1⟩ := getAvailableTokens_found rl key cfg b t1 hcfg hb
    have hcfg1 : mapGet (getAvailableTokens rl key t1).2.configs key = some cfg := by
      rw [hc1]; exact hcfg
    have hb1 : mapGet (getAvailableTokens rl key t1).2.buckets key =
        some (refillBucket b cfg t1) := by
      rw [hbk1]; exact mapGet_mapSet_self rl.buckets key _
    obtain ⟨hv2, -, -⟩ := getAvailableTokens_found (getAvailableTokens rl key t1).2 key cfg
      (refillBucket b cfg t1) t2 hcfg1 hb1
    rw [hv1, hv2]
    have hx : (refillBucket b cfg t1).tokens ≤
        (refillBucket (refillBucket b cfg t1) cfg t2).tokens :=
      refillBucket_tokens_mono (refillBucket b cfg t1) cfg t2
        (refillBucket_le_max b cfg t1) hmax hw
        (by rw [refillBucket_lastRefill]; exact h12)
    exact_mod_cast Int.floor_le_floor hx
  · refine ⟨?_, ?_, ?_⟩
    · simp [getAvailableTokens, fracLimiter, mapGet, mapSet, refillBucket]
      norm_num [min_def]
    · simp [getAvailableTokens, fracLimiter, mapGet, mapSet, refillBucket]
      norm_num [min_def]
    · simp [getAvailableTokens, fracLimiter, mapGet, mapSet, refillBucket]
      norm_num [min_def]

/-- Witness for C9 at the fracLimiter: the report goes from 0 at t = 500
to 1 at t = 1000, non-decreasing. -/
theorem c9_avail_monotone_witness :
    (getAvailableTokens fracLimiter "default" 500).1 ≤
      (getAvailableTokens (getAvailableTokens fracLimiter "default" 500).2 "default" 1000).1 :=
  c9_avail_monotone.1 fracLimiter "default" ⟨1, 1000, some true⟩ ⟨0, 0⟩ 500 1000
    (by decide) (by decide) (by decide) (by decide) (by decide) (by decide) (by decide)
    (by decide)

/-! ## Claim C6: token bounds under any operation sequence -/

/-- Sanity of a configuration map: non-negative capacity, positive window
(true of every shipped configuration, e.g. DEFAULT_RATE_LIMITS). -/
def GoodConfigs (configs : List (String × RateLimitConfig)) : Prop :=
  ∀ k cfg, mapGet configs k = some cfg → 0 ≤ cfg.maxRequests ∧ 0 < cfg.windowMs

/-- Bucket well-formedness at time t: every bucket belongs to a configured
key, holds between 0 and capacity tokens, and was last refilled at or
before t. -/
def BucketsWFList (configs : List (String × RateLimitConfig))
    (buckets : List (String × TokenBucket)) (t : ℚ) : Prop :=
  ∀ k b, mapGet buckets k = some b →
    ∃ cfg, mapGet configs k = some cfg ∧
      0 ≤ b.tokens ∧ b.tokens ≤ cfg.maxRequests ∧ b.lastRefill ≤ t

lemma wfList_mono (configs : List (String × RateLimitConfig))
    (buckets : List (String × TokenBucket)) (t t2 : ℚ)
    (h : BucketsWFList configs buckets t) (ht : t ≤ t2) :
    BucketsWFList configs buckets t2 := by
  intro k b hb
  obtain ⟨cfg, h1, h2, h3, h4⟩ := h k b hb
  exact ⟨cfg, h1, h2, h3, h4.trans ht⟩

lemma wfList_mapSet (configs : List (String × RateLimitConfig))
    (buckets : List (String × TokenBucket)) (t : ℚ) (key : String) (cfg : RateLimitConfig)
    (bnew : TokenBucket) (h : BucketsWFList configs buckets t)
    (hcfg : mapGet configs key = some cfg) (h0 : 0 ≤ bnew.tokens)
    (h1 : bnew.tokens ≤ cfg.maxRequests) (h2 : bnew.lastRefill ≤ t) :
    BucketsWFList configs (mapSet buckets key bnew) t := by
  intro k b hb
  by_cases hk : key = k
  · subst hk
    rw [mapGet_mapSet_self] at hb
    cases Option.some.inj hb
    exact ⟨cfg, hcfg, h0, h1, h2⟩
  · rw [mapGet_mapSet_ne buckets key k bnew hk] at hb
    exact h k b hb

lemma acquire_preserves (rl : RateLimiter) (key : String) (cid : Nat) (now t : ℚ)
    (hg : GoodConfigs rl.configs) (hwf : BucketsWFList rl.configs rl.buckets t)
    (ht : t ≤ now) :
    (acquire rl key cid now).2.configs = rl.configs ∧
    BucketsWFList rl.configs (acquire rl key cid now).2.buckets now := by
  have hwfn := wfList_mono rl.configs rl.buckets t now hwf ht
  cases hc : mapGet rl.configs key with
  | none =>
    simp only [acquire, hc]
    exact ⟨by trivial, hwfn⟩
  | some config =>
    obtain ⟨hmax, hwindow⟩ := hg key config hc
    cases hgb : mapGet rl.buckets key with
    | some b0 =>
      obtain ⟨cfg0, hcfg0, h00, h01, h02⟩ := hwf key b0 hgb
      rw [hc] at hcfg0
      cases Option.some.inj hcfg0
      have hr0 : 0 ≤ (refillBucket b0 config now).tokens :=
        refillBucket_nonneg b0 config now h00 hmax hwindow (h02.trans ht)
      have hr1 : (refillBucket b0 config now).tokens ≤ config.maxRequests :=
        refillBucket_le_max b0 config now
      simp only [acquire, hc, getOrCreateBucket, hgb]
      split_ifs with hge hq
      · exact ⟨rfl, wfList_mapSet rl.configs rl.buckets now key config _ hwfn hc
          (by simp only []; linarith) (by simp only []; linarith) (le_refl now)⟩
      · exact ⟨rfl, wfList_mapSet rl.configs rl.buckets now key config _ hwfn hc
          hr0 hr1 (le_refl now)⟩
      · exact ⟨rfl, wfList_mapSet rl.configs rl.buckets now key config _ hwfn hc
          hr0 hr1 (le_refl now)⟩
    | none =>
      have hXwf : BucketsWFList rl.configs (mapSet rl.buckets key ⟨config.maxRequests, now⟩)
          now :=
        wfList_mapSet rl.configs rl.buckets now key config _ hwfn hc hmax
          (le_refl _) (le_refl _)
      have hr0 : 0 ≤ (refillBucket ⟨config.maxRequests, now⟩ config now).tokens :=
        refillBucket_nonneg _ config now hmax hmax hwindow (le_refl now)
      have hr1 : (refillBucket ⟨config.maxRequests, now⟩ config now).tokens ≤
          config.maxRequests := refillBucket_le_max _ config now
      simp only [acquire, hc, getOrCreateBucket, hgb]
      split_ifs with hge hq
      · exact ⟨rfl, wfList_mapSet rl.configs _ now key config _ hXwf hc
          (by simp only []; linarith) (by simp only []; linarith) (le_refl now)⟩
      · exact ⟨rfl, wfList_mapSet rl.configs _ now key config _ hXwf hc
          hr0 hr1 (le_refl now)⟩
      · exact ⟨rfl, wfList_mapSet rl.configs _ now key config _ hXwf hc
          hr0 hr1 (le_refl now)⟩

lemma getAvailableTokens_preserves (rl : RateLimiter) (key : String) (now t : ℚ)
    (hg : GoodConfigs rl.configs) (hwf : BucketsWFList rl.configs rl.buckets t)
    (ht : t ≤ now) :
    (getAvailableTokens rl key now).2.configs = rl.configs ∧
    BucketsWFList rl.configs (getAvailableTokens rl key now).2.buckets now := by
  have hwfn := wfList_mono rl.configs rl.buckets t now hwf ht
  cases hc : mapGet rl.configs key with
  | none =>
    simp only [getAvailableTokens, hc]
    exact ⟨by trivial, hwfn⟩
  | some config =>
    obtain ⟨hmax, hwindow⟩ := hg key config hc
    cases hgb : mapGet rl.buckets key with
    | none =>
      simp only [getAvailableTokens, hc, hgb]
      exact ⟨by trivial, hwfn⟩
    | some b0 =>
      obtain ⟨cfg0, hcfg0, h00, h01, h02⟩ := hwf key b0 hgb
      rw [hc] at hcfg0
      cases Option.some.inj hcfg0
      simp only [getAvailableTokens, hc, hgb]
      exact ⟨by trivial, wfList_mapSet rl.configs rl.buckets now key config _ hwfn hc
        (refillBucket_nonneg b0 config now h00 hmax hwindow (h02.trans ht))
        (refillBucket_le_max b0 config now) (le_refl now)⟩

lemma processQueueIteration_preserves (rl : RateLimiter) (now t : ℚ)
    (hg : GoodConfigs rl.configs) (hwf : BucketsWFList rl.configs rl.buckets t)
    (ht : t ≤ now) :
    (processQueueIteration rl now).2.configs = rl.configs ∧
    BucketsWFList rl.configs (processQueueIteration rl now).2.buckets now := by
  have hwfn := wfList_mono rl.configs rl.buckets t now hwf ht
  cases hq : rl.queue with
  | nil =>
    simp only [processQueueIteration, hq]
    exact ⟨by trivial, hwfn⟩
  | cons r rest =>
    cases hc : mapGet rl.configs r.key with
    | none =>
      simp only [processQueueIteration, hq, hc]
      exact ⟨by trivial, hwfn⟩
    | some config =>
      obtain ⟨hmax, hwindow⟩ := hg r.key config hc
      cases hgb : mapGet rl.buckets r.key with
      | some b0 =>
        obtain ⟨cfg0, hcfg0, h00, h01, h02⟩ := hwf r.key b0 hgb
        rw [hc] at hcfg0
        cases Option.some.inj hcfg0
        have hr0 : 0 ≤ (refillBucket b0 config now).tokens :=
          refillBucket_nonneg b0 config now h00 hmax hwindow (h02.trans ht)
        have hr1 : (refillBucket b0 config now).tokens ≤ config.maxRequests :=
          refillBucket_le_max b0 config now
        simp only [processQueueIteration, hq, hc, getOrCreateBucket, hgb]
        split_ifs with hge
        · exact ⟨rfl, wfList_mapSet rl.configs rl.buckets now r.key config _ hwfn hc
            (by simp only []; linarith) (by simp only []; linarith) (le_refl now)⟩
        · exact ⟨rfl, wfList_mapSet rl.configs rl.buckets now r.key config _ hwfn hc
            hr0 hr1 (le_refl now)⟩
      | none =>
        have hXwf : BucketsWFList rl.configs
            (mapSet rl.buckets r.key ⟨config.maxRequests, now⟩) now :=
          wfList_mapSet rl.configs rl.buckets now r.key config _ hwfn hc hmax
            (le_refl _) (le_refl _)
        have hr0 : 0 ≤ (refillBucket ⟨config.maxRequests, now⟩ config now).tokens :=
          refillBucket_nonneg _ config now hmax hmax hwindow (le_refl now)
        have hr1 : (refillBucket ⟨config.maxRequests, now⟩ config now).tokens ≤
            config.maxRequests := refillBucket_le_max _ config now
        simp only [processQueueIteration, hq, hc, getOrCreateBucket, hgb]
        split_ifs with hge
        · exact ⟨rfl, wfList_mapSet rl.configs _ now r.key config _ hXwf hc
            (by simp only []; linarith) (by simp only []; linarith) (le_refl now)⟩
        · exact ⟨rfl, wfList_mapSet rl.configs _ now r.key config _ hXwf hc
            hr0 hr1 (le_refl now)⟩

/-- An externally triggered limiter operation, carrying the Date.now()
value observed when it runs. -/
inductive LimiterOp where
  | acquireOp (key : String) (callerId : Nat) (now : ℚ)
  | availOp (key : String) (now : ℚ)
  | drainOp (now : ℚ)
  | resetOp
deriving DecidableEq

/-- The clock value an operation observes (reset reads no clock). -/
def opTime : LimiterOp → Option ℚ
  | LimiterOp.acquireOp _ _ t => some t
  | LimiterOp.availOp _ t => some t
  | LimiterOp.drainOp t => some t
  | LimiterOp.resetOp => none

/-- Apply one operation to the limiter state. -/
def applyOp (rl : RateLimiter) (op : LimiterOp) : RateLimiter :=
  match op with
  | LimiterOp.acquireOp key cid t => (acquire rl key cid t).2
  | LimiterOp.availOp key t => (getAvailableTokens rl key t).2
  | LimiterOp.drainOp t => (processQueueIteration rl t).2
  | LimiterOp.resetOp => reset rl

/-- Apply a sequence of operations. -/
def applyOps (rl : RateLimiter) (ops : List LimiterOp) : RateLimiter :=
  ops.foldl applyOp rl

/-- Non-negative elapsed time: the clock values observed by successive
operations never decrease, starting from t0. -/
def TimedFrom (t0 : ℚ) : List LimiterOp → Prop
  | [] => True
  | op :: rest =>
    match opTime op with
    | some t => t0 ≤ t ∧ TimedFrom t rest
    | none => TimedFrom t0 rest

lemma applyOp_preserves (rl : RateLimiter) (op : LimiterOp) (t : ℚ)
    (hg : GoodConfigs rl.configs) (hwf : BucketsWFList rl.configs rl.buckets t)
    (ht : ∀ t2, opTime op = some t2 → t ≤ t2) :
    (applyOp rl op).configs = rl.configs ∧
    BucketsWFList rl.configs (applyOp rl op).buckets ((opTime op).getD t) := by
  cases op with
  | acquireOp key cid t2 =>
    exact acquire_preserves rl key cid t2 t hg hwf (ht t2 rfl)
  | availOp key t2 =>
    exact getAvailableTokens_preserves rl key t2 t hg hwf (ht t2 rfl)
  | drainOp t2 =>
    exact processQueueIteration_preserves rl t2 t hg hwf (ht t2 rfl)
  | resetOp =>
    refine ⟨rfl, ?_⟩
    intro k b hb
    exact Option.noConfusion hb

lemma applyOps_preserves (ops : List LimiterOp) :
    ∀ (rl : RateLimiter) (t : ℚ), GoodConfigs rl.configs →
      BucketsWFList rl.configs rl.buckets t → TimedFrom t ops →
      (applyOps rl ops).configs = rl.configs ∧
      ∃ t2, BucketsWFList rl.configs (applyOps rl ops).buckets t2 := by
  induction ops with
  | nil => exact fun rl t hg hwf _ => ⟨rfl, t, hwf⟩
  | cons op rest ih =>
    intro rl t hg hwf htimed
    have hstep := applyOp_preserves rl op t hg hwf
    cases hot : opTime op with
    | some t2 =>
      unfold TimedFrom at htimed
      rw [hot] at htimed
      obtain ⟨hc1, hwf1⟩ := hstep (fun t3 h3 => by
        rw [hot] at h3
        cases Option.some.inj h3
        exact htimed.1)
      rw [hot] at hwf1
      have hg1 : GoodConfigs (applyOp rl op).configs := by rw [hc1]; exact hg
      have hwf1b : BucketsWFList (applyOp rl op).configs (applyOp rl op).buckets t2 := by
        rw [hc1]; exact hwf1
      obtain ⟨hc2, t3, hwf2⟩ := ih (applyOp rl op) t2 hg1 hwf1b htimed.2
      refine ⟨?_, t3, ?_⟩
      · show (applyOps (applyOp rl op) rest).configs = rl.configs
        rw [hc2, hc1]
      · show BucketsWFList rl.configs (applyOps (applyOp rl op) rest).buckets t3
        rw [← hc1]
        exact hwf2
    | none =>
      unfold TimedFrom at htimed
      rw [hot] at htimed
      obtain ⟨hc1, hwf1⟩ := hstep (fun t3 h3 => by rw [hot] at h3; exact Option.noConfusion h3)
      rw [hot] at hwf1
      have hg1 : GoodConfigs (applyOp rl op).configs := by rw [hc1]; exact hg
      have hwf1b : BucketsWFList (applyOp rl op).configs (applyOp rl op).buckets t := by
        rw [hc1]; exact hwf1
      obtain ⟨hc2, t3, hwf2⟩ := ih (applyOp rl op) t hg1 hwf1b htimed
      refine ⟨?_, t3, ?_⟩
      · show (applyOps (applyOp rl op) rest).configs = rl.configs
        rw [hc2, hc1]
      · show BucketsWFList rl.configs (applyOps (applyOp rl op) rest).buckets t3
        rw [← hc1]
        exact hwf2

/-- C6: for sane configurations (non-negative capacity, positive window),
starting from well-formed buckets, any sequence of acquisitions,
availability reads, drain iterations and resets observed at non-decreasing
clock values keeps every bucket within 0 ≤ tokens ≤ capacity; refill
itself caps the count at the capacity. -/
theorem c6_token_bounds :
    (∀ (rl : RateLimiter) (t0 : ℚ) (ops : List LimiterOp),
      GoodConfigs rl.configs → BucketsWFList rl.configs rl.buckets t0 →
      TimedFrom t0 ops →
      ∀ k b, mapGet (applyOps rl ops).buckets k = some b →
        ∃ cfg, mapGet rl.configs k = some cfg ∧
          0 ≤ b.tokens ∧ b.tokens ≤ cfg.maxRequests) ∧
    (∀ (b : TokenBucket) (cfg : RateLimitConfig) (now : ℚ),
      (refillBucket b cfg now).tokens ≤ cfg.maxRequests) := by
  constructor
  · intro rl t0 ops hg hwf ht k b hb
    obtain ⟨hcs, t2, hwf2⟩ := applyOps_preserves ops rl t0 hg hwf ht
    obtain ⟨cfg, h1, h2, h3, h4⟩ := hwf2 k b hb
    exact ⟨cfg, h1, h2, h3⟩
  · exact refillBucket_le_max

/-- The limiter and operation list used as the C6 spot check: one
configured key, an acquisition at t = 0 and an availability read at
t = 500. -/
def rlW : RateLimiter := ⟨[("default", ⟨1, 1000, some true⟩)], [], [], false⟩

def opsW : List LimiterOp :=
  [LimiterOp.acquireOp "default" 0 0, LimiterOp.availOp "default" 500]

/-- Witness for C6: after the acquisition and the read, the stored bucket
is ⟨1/2, 500⟩ and the theorem yields its bounds. -/
theorem c6_token_bounds_witness :
    ∃ cfg, mapGet rlW.configs "default" = some cfg ∧
      (0 : ℚ) ≤ (⟨1 / 2, 500⟩ : TokenBucket).tokens ∧
      (⟨1 / 2, 500⟩ : TokenBucket).tokens ≤ cfg.maxRequests := by
  have hg : GoodConfigs rlW.configs := by
    intro k cfg h
    simp only [rlW, mapGet] at h
    split_ifs at h with hk
    cases Option.some.inj h
    exact ⟨by norm_num, by norm_num⟩
  have hwf : BucketsWFList rlW.configs rlW.buckets 0 := by
    intro k b h
    exact Option.noConfusion h
  have htimed : TimedFrom 0 opsW := ⟨le_refl 0, by norm_num, trivial⟩
  have hb : mapGet (applyOps rlW opsW).buckets "default" = some ⟨1 / 2, 500⟩ := by
    show mapGet (applyOp (applyOp rlW (LimiterOp.acquireOp "default" 0 0))
      (LimiterOp.availOp "default" 500)).buckets "default" = some ⟨1 / 2, 500⟩
    norm_num [applyOp, rlW, acquire, getAvailableTokens, getOrCreateBucket,
      refillBucket, mapGet, mapSet, min_def]
  exact c6_token_bounds.1 rlW 0 opsW hg hwf htimed "default" ⟨1 / 2, 500⟩ hb

/-! ## Claim C5: FIFO grant order for queued callers

The drain loop and concurrent acquire calls are modelled as a step
relation on (limiter state, grant log): a `drain` step is one iteration of
processQueueIteration at some clock value, appending the caller it
resolves (granted or removed-invalid — both resolve the promise) to the
log; an `acquireCall` step is one acquire invocation by a fresh caller,
appending the caller to the log only on the immediate-grant fast path.
`reset` is a test utility outside the drain process and is not part of
this interleaving. -/

/-- The caller ids in queue order. -/
def queueIds (q : List QueuedRequest) : List Nat :=
  q.map QueuedRequest.callerId

/-- Callers resolved by a drain iteration. -/
def grantsOf : DrainAction → List Nat
  | DrainAction.grantedHead cid => [cid]
  | DrainAction.removedInvalid cid => [cid]
  | DrainAction.idle => []
  | DrainAction.slept _ => []

/-- Callers resolved synchronously by an acquire call (fast path only). -/
def fastGrantsOf (callerId : Nat) : AcquireResult → List Nat
  | AcquireResult.granted => [callerId]
  | AcquireResult.queued => []
  | AcquireResult.configurationError _ => []
  | AcquireResult.rateLimitExceeded _ => []

/-- One step of the interleaved queue-drain process. -/
inductive LimiterStep : RateLimiter × List Nat → RateLimiter × List Nat → Prop where
  | drain (rl : RateLimiter) (g : List Nat) (now : ℚ) (a : DrainAction) (rl2 : RateLimiter) :
      processQueueIteration rl now = (a, rl2) →
      LimiterStep (rl, g) (rl2, g ++ grantsOf a)
  | acquireCall (rl : RateLimiter) (g : List Nat) (key : String) (callerId : Nat) (now : ℚ)
      (res : AcquireResult) (rl2 : RateLimiter) :
      acquire rl key callerId now = (res, rl2) →
      callerId ∉ queueIds rl.queue → callerId ∉ g →
      LimiterStep (rl, g) (rl2, g ++ fastGrantsOf callerId res)

/-- a occurs strictly before b in l. -/
def listPrecedes (a b : Nat) (l : List Nat) : Prop :=
  ∃ l1 l2 l3, l = l1 ++ a :: (l2 ++ b :: l3)

lemma listPrecedes_append (a b : Nat) (l l2 : List Nat) (h : listPrecedes a b l) :
    listPrecedes a b (l ++ l2) := by
  obtain ⟨p, m, r, he⟩ := h
  exact ⟨p, m, r ++ l2, by rw [he]; simp⟩

lemma listPrecedes_cons (a b x : Nat) (xs : List Nat) (h : listPrecedes a b (x :: xs)) :
    (x = a ∧ b ∈ xs) ∨ listPrecedes a b xs := by
  obtain ⟨p, m, r, he⟩ := h
  cases p with
  | nil =>
    simp only [List.nil_append, List.cons.injEq] at he
    exact Or.inl ⟨he.1, by rw [he.2]; simp⟩
  | cons c p2 =>
    simp only [List.cons_append, List.cons.injEq] at he
    exact Or.inr ⟨p2, m, r, he.2⟩

lemma listPrecedes_mem_left (a b : Nat) (l : List Nat) (h : listPrecedes a b l) : a ∈ l := by
  obtain ⟨p, m, r, he⟩ := h
  rw [he]; simp

lemma listPrecedes_mem_right (a b : Nat) (l : List Nat) (h : listPrecedes a b l) : b ∈ l := by
  obtain ⟨p, m, r, he⟩ := h
  rw [he]; simp

lemma listPrecedes_append_of_mem (a b : Nat) (g : List Nat) (ha : a ∈ g) :
    listPrecedes a b (g ++ [b]) := by
  obtain ⟨s, t, rfl⟩ := List.append_of_mem ha
  exact ⟨s, t, [], by simp⟩

lemma nodup_shift (x : Nat) (q g : List Nat) (h : ((x :: q) ++ g).Nodup) :
    (q ++ (g ++ [x])).Nodup := by
  have h2 : (x :: (q ++ g)).Nodup := h
  rw [← List.append_assoc]
  exact ((List.perm_append_singleton x (q ++ g)).nodup_iff).mpr h2

lemma nodup_snoc_right (cid : Nat) (q g : List Nat) (h : (q ++ g).Nodup)
    (h1 : cid ∉ q) (h2 : cid ∉ g) : (q ++ (g ++ [cid])).Nodup := by
  rw [← List.append_assoc]
  refine ((List.perm_append_singleton cid (q ++ g)).nodup_iff).mpr ?_
  refine List.Nodup.cons ?_ h
  simp only [List.mem_append]
  rintro (hc | hc)
  · exact h1 hc
  · exact h2 hc

lemma nodup_enqueue (cid : Nat) (q g : List Nat) (h : (q ++ g).Nodup)
    (h1 : cid ∉ q) (h2 : cid ∉ g) : ((q ++ [cid]) ++ g).Nodup := by
  rw [List.append_assoc]
  have hperm : List.Perm (q ++ cid :: g) (cid :: (q ++ g)) := List.perm_middle
  refine hperm.nodup_iff.mpr ?_
  refine List.Nodup.cons ?_ h
  simp only [List.mem_append]
  rintro (hc | hc)
  · exact h1 hc
  · exact h2 hc

/-- FIFO invariant for two tracked callers a and b over (queue ids, grant
log): either both are still ungranted with a ahead of b in the queue, or a
is granted and b is not, or both are granted with a earlier in the log;
and no caller id occurs twice across queue and log. -/
def FifoInvP (a b : Nat) (q g : List Nat) : Prop :=
  ((listPrecedes a b q ∧ a ∉ g ∧ b ∉ g) ∨ (a ∈ g ∧ b ∉ g) ∨ listPrecedes a b g) ∧
  (q ++ g).Nodup

lemma fifoInvP_grantHead (a b x : Nat) (q g : List Nat) (h : FifoInvP a b (x :: q) g) :
    FifoInvP a b q (g ++ [x]) := by
  obtain ⟨hcase, hnd⟩ := h
  have hnd2 : (x :: (q ++ g)).Nodup := hnd
  have hx : x ∉ q ++ g := (List.nodup_cons.mp hnd2).1
  have hxq : x ∉ q := fun hc => hx (List.mem_append.mpr (Or.inl hc))
  have hxg : x ∉ g := fun hc => hx (List.mem_append.mpr (Or.inr hc))
  refine ⟨?_, nodup_shift x q g hnd⟩
  rcases hcase with ⟨hp, ha, hb⟩ | ⟨ha, hb⟩ | hp
  · rcases listPrecedes_cons a b x q hp with ⟨hxa, hbq⟩ | hp2
    · subst hxa
      refine Or.inr (Or.inl ⟨by simp, ?_⟩)
      simp only [List.mem_append, List.mem_singleton]
      rintro (hc | hc)
      · exact hb hc
      · exact hxq (hc ▸ hbq)
    · refine Or.inl ⟨hp2, ?_, ?_⟩
      · simp only [List.mem_append, List.mem_singleton]
        rintro (hc | hc)
        · exact ha hc
        · exact hxq (hc ▸ listPrecedes_mem_left a b q hp2)
      · simp only [List.mem_append, List.mem_singleton]
        rintro (hc | hc)
        · exact hb hc
        · exact hxq (hc ▸ listPrecedes_mem_right a b q hp2)
  · by_cases hxb : x = b
    · subst hxb
      exact Or.inr (Or.inr (listPrecedes_append_of_mem a x g ha))
    · refine Or.inr (Or.inl ⟨List.mem_append.mpr (Or.inl ha), ?_⟩)
      simp only [List.mem_append, List.mem_singleton]
      rintro (hc | hc)
      · exact hb hc
      · exact hxb hc.symm
  · exact Or.inr (Or.inr (listPrecedes_append a b g [x] hp))

lemma fifoInvP_fastGrant (a b c : Nat) (q g : List Nat) (h : FifoInvP a b q g)
    (hc1 : c ∉ q) (hc2 : c ∉ g) : FifoInvP a b q (g ++ [c]) := by
  obtain ⟨hcase, hnd⟩ := h
  refine ⟨?_, nodup_snoc_right c q g hnd hc1 hc2⟩
  rcases hcase with ⟨hp, ha, hb⟩ | ⟨ha, hb⟩ | hp
  · refine Or.inl ⟨hp, ?_, ?_⟩
    · simp only [List.mem_append, List.mem_singleton]
      rintro (hc | hc)
      · exact ha hc
      · exact hc1 (hc ▸ listPrecedes_mem_left a b q hp)
    · simp only [List.mem_append, List.mem_singleton]
      rintro (hc | hc)
      · exact hb hc
      · exact hc1 (hc ▸ listPrecedes_mem_right a b q hp)
  · by_cases hcb : c = b
    · subst hcb
      exact Or.inr (Or.inr (listPrecedes_append_of_mem a c g ha))
    · refine Or.inr (Or.inl ⟨List.mem_append.mpr (Or.inl ha), ?_⟩)
      simp only [List.mem_append, List.mem_singleton]
      rintro (hc | hc)
      · exact hb hc
      · exact hcb hc.symm
  · exact Or.inr (Or.inr (listPrecedes_append a b g [c] hp))

lemma fifoInvP_enqueue (a b c : Nat) (q g : List Nat) (h : FifoInvP a b q g)
    (hc1 : c ∉ q) (hc2 : c ∉ g) : FifoInvP a b (q ++ [c]) g := by
  obtain ⟨hcase, hnd⟩ := h
  refine ⟨?_, nodup_enqueue c q g hnd hc1 hc2⟩
  rcases hcase with ⟨hp, ha, hb⟩ | ⟨ha, hb⟩ | hp
  · exact Or.inl ⟨listPrecedes_append a b q [c] hp, ha, hb⟩
  · exact Or.inr (Or.inl ⟨ha, hb⟩)
  · exact Or.inr (Or.inr hp)

/-- Shape of one drain iteration: either the queue is untouched and nobody
is resolved (idle or sleeping), or exactly the head is dequeued and
resolved. -/
lemma processQueueIteration_shape (rl : RateLimiter) (now : ℚ) :
    ((processQueueIteration rl now).2.queue = rl.queue ∧
      grantsOf (processQueueIteration rl now).1 = [])
    ∨ (∃ r rest, rl.queue = r :: rest ∧ (processQueueIteration rl now).2.queue = rest ∧
        grantsOf (processQueueIteration rl now).1 = [r.callerId]) := by
  cases hq : rl.queue with
  | nil =>
    left
    simp [processQueueIteration, hq, grantsOf]
  | cons r rest =>
    cases hc : mapGet rl.configs r.key with
    | none =>
      right
      refine ⟨r, rest, rfl, ?_, ?_⟩ <;> simp [processQueueIteration, hq, hc, grantsOf]
    | some config =>
      cases hgb : mapGet rl.buckets r.key with
      | some b0 =>
        simp only [processQueueIteration, hq, hc, getOrCreateBucket, hgb]
        split_ifs with hge
        · right
          exact ⟨r, rest, rfl, rfl, rfl⟩
        · left
          exact ⟨rfl, rfl⟩
      | none =>
        simp only [processQueueIteration, hq, hc, getOrCreateBucket, hgb]
        split_ifs with hge
        · right
          exact ⟨r, rest, rfl, rfl, rfl⟩
        · left
          exact ⟨rfl, rfl⟩

/-- Shape of one acquire call: the queue is untouched (with the caller
fast-granted or not granted at all), or the caller is appended to the
queue tail. -/
lemma acquire_shape (rl : RateLimiter) (key : String) (cid : Nat) (now : ℚ) :
    ((acquire rl key cid now).2.queue = rl.queue ∧
      (fastGrantsOf cid (acquire rl key cid now).1 = [] ∨
        fastGrantsOf cid (acquire rl key cid now).1 = [cid]))
    ∨ ((acquire rl key cid now).2.queue = rl.queue ++ [⟨key, cid, now⟩] ∧
        fastGrantsOf cid (acquire rl key cid now).1 = []) := by
  cases hc : mapGet rl.configs key with
  | none =>
    left
    exact ⟨by simp [acquire, hc], Or.inl (by simp [acquire, hc, fastGrantsOf])⟩
  | some config =>
    cases hgb : mapGet rl.buckets key with
    | some b0 =>
      simp only [acquire, hc, getOrCreateBucket, hgb]
      split_ifs with hge hqr
      · left
        exact ⟨rfl, Or.inr rfl⟩
      · left
        exact ⟨rfl, Or.inl rfl⟩
      · right
        exact ⟨rfl, rfl⟩
    | none =>
      simp only [acquire, hc, getOrCreateBucket, hgb]
      split_ifs with hge hqr
      · left
        exact ⟨rfl, Or.inr rfl⟩
      · left
        exact ⟨rfl, Or.inl rfl⟩
      · right
        exact ⟨rfl, rfl⟩

/-- The FIFO invariant on a (state, grant log) pair. -/
def FifoInv (a b : Nat) (p : RateLimiter × List Nat) : Prop :=
  FifoInvP a b (queueIds p.1.queue) p.2

lemma fifoInv_step (a b : Nat) (p p2 : RateLimiter × List Nat)
    (hstep : LimiterStep p p2) (h : FifoInv a b p) : FifoInv a b p2 := by
  cases hstep with
  | drain rl g now act rl2 heq =>
    have hs := processQueueIteration_shape rl now
    rw [heq] at hs
    simp only [] at hs
    rcases hs with ⟨hqe, hge⟩ | ⟨r, rest, hq, hq2, hgr⟩
    · unfold FifoInv at h ⊢
      simp only [hqe, hge, List.append_nil]
      exact h
    · unfold FifoInv at h ⊢
      rw [hq] at h
      simp only [hq2, hgr]
      exact fifoInvP_grantHead a b r.callerId (queueIds rest) g h
  | acquireCall rl g key cid now res rl2 heq hqid hgid =>
    have hs := acquire_shape rl key cid now
    rw [heq] at hs
    simp only [] at hs
    rcases hs with ⟨hqe, hge | hge⟩ | ⟨hqe, hge⟩
    · unfold FifoInv at h ⊢
      simp only [hqe, hge, List.append_nil]
      exact h
    · unfold FifoInv at h ⊢
      simp only [hqe, hge]
      exact fifoInvP_fastGrant a b cid (queueIds rl.queue) g h hqid hgid
    · unfold FifoInv at h ⊢
      simp only [hqe, hge, List.append_nil]
      have hqids : queueIds (rl.queue ++ [⟨key, cid, now⟩]) =
          queueIds rl.queue ++ [cid] := by simp [queueIds]
      rw [hqids]
      exact fifoInvP_enqueue a b cid (queueIds rl.queue) g h hqid hgid

lemma fifoInv_reaches (a b : Nat) (p q : RateLimiter × List Nat)
    (h : Relation.ReflTransGen LimiterStep p q) (h0 : FifoInv a b p) : FifoInv a b q := by
  induction h with
  | refl => exact h0
  | tail hsteps hstep ih => exact fifoInv_step a b _ _ hstep ih

/-- C5: over any interleaving of drain iterations and fresh acquire calls,
if caller a is queued ahead of caller b (same or different key — a fortiori
for the same bucket key) and neither is yet granted, then whenever b has
been granted, a appears strictly earlier in the grant log: a is granted no
later than b. -/
theorem c5_fifo (s : RateLimiter) (g : List Nat) (s2 : RateLimiter) (g2 : List Nat)
    (a b : Nat)
    (htrace : Relation.ReflTransGen LimiterStep (s, g) (s2, g2))
    (hnd : (queueIds s.queue ++ g).Nodup)
    (hprec : listPrecedes a b (queueIds s.queue))
    (ha : a ∉ g) (hb : b ∉ g)
    (hbg : b ∈ g2) :
    listPrecedes a b g2 := by
  have hfin := fifoInv_reaches a b (s, g) (s2, g2) htrace
    ⟨Or.inl ⟨hprec, ha, hb⟩, hnd⟩
  rcases hfin.1 with ⟨-, -, hb2⟩ | ⟨-, hb2⟩ | hp
  · exact absurd hbg hb2
  · exact absurd hbg hb2
  · exact hp

/-- Concrete FIFO scenario: key "k" with capacity 1 per second, empty
bucket, callers 0 then 1 queued. -/
def fifoS0 : RateLimiter :=
  ⟨[("k", ⟨1, 1000, some true⟩)], [("k", ⟨0, 0⟩)], [⟨"k", 0, 0⟩, ⟨"k", 1, 0⟩], true⟩

def fifoS1 : RateLimiter :=
  ⟨[("k", ⟨1, 1000, some true⟩)], [("k", ⟨0, 1000⟩)], [⟨"k", 1, 0⟩], true⟩

def fifoS2 : RateLimiter :=
  ⟨[("k", ⟨1, 1000, some true⟩)], [("k", ⟨0, 2000⟩)], [], true⟩

/-- Witness for C5: the drain grants caller 0 at t = 1000 and caller 1 at
t = 2000, so the grant log orders 0 before 1. -/
theorem c5_fifo_witness : listPrecedes 0 1 [0, 1] := by
  have step1 : processQueueIteration fifoS0 1000 = (DrainAction.grantedHead 0, fifoS1) := by
    norm_num [processQueueIteration, fifoS0, fifoS1, getOrCreateBucket, refillBucket,
      mapGet, mapSet, min_def]
  have step2 : processQueueIteration fifoS1 2000 = (DrainAction.grantedHead 1, fifoS2) := by
    norm_num [processQueueIteration, fifoS1, fifoS2, getOrCreateBucket, refillBucket,
      mapGet, mapSet, min_def]
  have h1 : LimiterStep (fifoS0, []) (fifoS1, [0]) :=
    LimiterStep.drain fifoS0 [] 1000 (DrainAction.grantedHead 0) fifoS1 step1
  have h2 : LimiterStep (fifoS1, [0]) (fifoS2, [0, 1]) :=
    LimiterStep.drain fifoS1 [0] 2000 (DrainAction.grantedHead 1) fifoS2 step2
  exact c5_fifo fifoS0 [] fifoS2 [0, 1] 0 1
    (Relation.ReflTransGen.tail (Relation.ReflTransGen.single h1) h2)
    (by decide) ⟨[], [], [], rfl⟩ (by simp) (by simp) (by simp)

/-! ## Token cache (src/auth: token-manager.ts)

Timestamps are millisecond integers (Date.now()).  The outcome of the
single axios.post a refresh would perform is passed in as a parameter:
success carries access_token and expires_in, an axios failure carries the
optional error_description of the response body and the error message, and
any other thrown value is re-thrown as is. -/

/-- interface CachedToken. -/
structure CachedToken where
  accessToken : String
  expiresAt : Int
deriving DecidableEq

/-- Mutable state of a TokenManager: the cached token, if any. -/
structure TokenManagerState where
  cachedToken : Option CachedToken
deriving DecidableEq

/-- Outcome of the refresh HTTP call. -/
inductive RefreshOutcome where
  | success (access_token : String) (expires_in : Int)
  | axiosFailure (errorDescription : Option String) (message : String)
  | otherFailure (message : String)
deriving DecidableEq

instance : DecidableEq (Except String String) := fun a b =>
  match a, b with
  | Except.ok x, Except.ok y =>
    match decEq x y with
    | isTrue h => isTrue (congrArg Except.ok h)
    | isFalse h => isFalse (fun hc => h (Except.ok.inj hc))
  | Except.error x, Except.error y =>
    match decEq x y with
    | isTrue h => isTrue (congrArg Except.error h)
    | isFalse h => isFalse (fun hc => h (Except.error.inj hc))
  | Except.ok _, Except.error _ => isFalse (fun hc => Except.noConfusion hc)
  | Except.error _, Except.ok _ => isFalse (fun hc => Except.noConfusion hc)

/-- Result of getAccessToken: the returned token or thrown error message,
the new cache state, and how many refresh HTTP calls were made. -/
structure TokenFetchResult where
  result : Except String String
  state : TokenManagerState
  networkCalls : Nat
deriving DecidableEq

/-- TokenManager.isTokenValid: valid while more than the 5-minute buffer
remains before expiry. -/
def isTokenValid (token : CachedToken) (now : Int) : Bool :=
  decide (token.expiresAt > now + 5 * 60 * 1000)

/-- TokenManager.refreshAccessToken: one POST; on success cache
{access_token, now + expires_in * 1000} and return the token; on an axios
failure throw "Failed to refresh LWA access token: <description or
message>" (the description is used only when non-empty — JavaScript `||`),
leaving the cache untouched; other thrown values propagate unchanged. -/
def refreshAccessToken (st : TokenManagerState) (now : Int) (outcome : RefreshOutcome) :
    TokenFetchResult :=
  match outcome with
  | RefreshOutcome.success access_token expires_in =>
    ⟨Except.ok access_token, ⟨some ⟨access_token, now + expires_in * 1000⟩⟩, 1⟩
  | RefreshOutcome.axiosFailure errorDescription message =>
    let msg := jsOrString (errorDescription.getD "") message
    ⟨Except.error ("Failed to refresh LWA access token: " ++ msg), st, 1⟩
  | RefreshOutcome.otherFailure message =>
    ⟨Except.error message, st, 1⟩

/-- TokenManager.getAccessToken: return the cached token while valid,
otherwise refresh. -/
def getAccessToken (st : TokenManagerState) (now : Int) (outcome : RefreshOutcome) :
    TokenFetchResult :=
  match st.cachedToken with
  | some tok =>
    if isTokenValid tok now then ⟨Except.ok tok.accessToken, st, 0⟩
    else refreshAccessToken st now outcome
  | none => refreshAccessToken st now outcome

/-- TokenManager.hasCachedToken. -/
def hasCachedToken (st : TokenManagerState) (now : Int) : Bool :=
  match st.cachedToken with
  | some tok => isTokenValid tok now
  | none => false

/-! ## Claim C7 -/

/-- C7: a cached token expiring more than 5 minutes after now is returned
as is, with no network call and no state change; when the cache is absent
or the token is within the 5-minute margin, exactly one refresh HTTP call
is made. -/
theorem c7_token_cache (st : TokenManagerState) (now : Int) (outcome : RefreshOutcome) :
    (∀ tok, st.cachedToken = some tok → tok.expiresAt > now + 5 * 60 * 1000 →
      getAccessToken st now outcome = ⟨Except.ok tok.accessToken, st, 0⟩) ∧
    ((st.cachedToken = none ∨
        ∃ tok, st.cachedToken = some tok ∧ tok.expiresAt ≤ now + 5 * 60 * 1000) →
      (getAccessToken st now outcome).networkCalls = 1) := by
  constructor
  · intro tok htok hexp
    unfold getAccessToken
    rw [htok]
    simp only []
    rw [if_pos (by simp [isTokenValid]; omega)]
  · intro hcase
    have hrefresh : (refreshAccessToken st now outcome).networkCalls = 1 := by
      cases outcome <;> rfl
    rcases hcase with hnone | ⟨tok, htok, hexp⟩
    · unfold getAccessToken
      rw [hnone]
      exact hrefresh
    · unfold getAccessToken
      rw [htok]
      simp only []
      rw [if_neg (by simp [isTokenValid]; omega)]
      exact hrefresh

/-- Witness for C7: a token expiring at 301000 ms with now = 0 is reused
without a refresh; an empty cache at now = 0 performs one refresh call. -/
theorem c7_token_cache_witness :
    getAccessToken ⟨some ⟨"tok", 301000⟩⟩ 0 (RefreshOutcome.success "new" 3600) =
      ⟨Except.ok "tok", ⟨some ⟨"tok", 301000⟩⟩, 0⟩ ∧
    (getAccessToken ⟨none⟩ 0 (RefreshOutcome.success "new" 3600)).networkCalls = 1 :=
  ⟨(c7_token_cache ⟨some ⟨"tok", 301000⟩⟩ 0 (RefreshOutcome.success "new" 3600)).1
      ⟨"tok", 301000⟩ rfl (by norm_num),
    (c7_token_cache ⟨none⟩ 0 (RefreshOutcome.success "new" 3600)).2 (Or.inl rfl)⟩

/-! ## Claim C8 -/

/-- C8: when the refresh call fails, getAccessToken fails and the cache is
left exactly as it was (it is written only on a successful refresh); for
an axios failure the error is the descriptive "Failed to refresh LWA
access token: ..." message, embedding the upstream error description when
the response carries a non-empty one, and falling back to the transport
error message otherwise. -/
theorem c8_refresh_failure_keeps_cache (st : TokenManagerState) (now : Int)
    (hmiss : st.cachedToken = none ∨
      ∃ tok, st.cachedToken = some tok ∧ tok.expiresAt ≤ now + 5 * 60 * 1000) :
    (∀ d m, (getAccessToken st now (RefreshOutcome.axiosFailure d m)).state = st ∧
      (d ≠ none → d ≠ some "" →
        (getAccessToken st now (RefreshOutcome.axiosFailure d m)).result =
          Except.error ("Failed to refresh LWA access token: " ++ (d.getD ""))) ∧
      ((d = none ∨ d = some "") →
        (getAccessToken st now (RefreshOutcome.axiosFailure d m)).result =
          Except.error ("Failed to refresh LWA access token: " ++ m))) ∧
    (∀ m, (getAccessToken st now (RefreshOutcome.otherFailure m)).state = st ∧
      (getAccessToken st now (RefreshOutcome.otherFailure m)).result = Except.error m) := by
  have hgo : ∀ outcome, getAccessToken st now outcome = refreshAccessToken st now outcome := by
    intro outcome
    rcases hmiss with hnone | ⟨tok, htok, hexp⟩
    · unfold getAccessToken
      rw [hnone]
    · unfold getAccessToken
      rw [htok]
      simp only []
      rw [if_neg (by simp [isTokenValid]; omega)]
  constructor
  · intro d m
    rw [hgo]
    refine ⟨rfl, ?_, ?_⟩
    · intro hd1 hd2
      cases d with
      | none => exact absurd rfl hd1
      | some s =>
        have hs : s ≠ "" := fun hc => hd2 (by rw [hc])
        simp [refreshAccessToken, jsOrString, hs]
    · intro hd
      rcases hd with rfl | rfl
      · simp [refreshAccessToken, jsOrString]
      · simp [refreshAccessToken, jsOrString]
  · intro m
    rw [hgo]
    exact ⟨rfl, rfl⟩

/-- Witness for C8: with an expired cached token, a failed refresh with
error_description "invalid_grant" leaves the cache unchanged and reports
the description. -/
theorem c8_refresh_failure_keeps_cache_witness :
    (getAccessToken ⟨some ⟨"old", 100⟩⟩ 0
        (RefreshOutcome.axiosFailure (some "invalid_grant") "Request failed")).state =
      ⟨some ⟨"old", 100⟩⟩ ∧
    (getAccessToken ⟨some ⟨"old", 100⟩⟩ 0
        (RefreshOutcome.axiosFailure (some "invalid_grant") "Request failed")).result =
      Except.error "Failed to refresh LWA access token: invalid_grant" := by
  have h := (c8_refresh_failure_keeps_cache ⟨some ⟨"old", 100⟩⟩ 0
    (Or.inr ⟨⟨"old", 100⟩, rfl, by norm_num⟩)).1 (some "invalid_grant") "Request failed"
  exact ⟨h.1, by rw [h.2.1 (by simp) (by simp)]; rfl⟩
